import Mathlib

/-!
Shallow embedding of the authentication subsystem of the BlankProject
repository: the authorisation controller (src/backend/controllers/
authorisationController.js), the JWT middleware (src/backend/middleware/
authMiddleware.js), the server entry (src/backend/database/db.js, which also
registers the /api/users route), and the client session gate
(src/frontend/src/services/UserContext.jsx and
src/frontend/src/components/ProtectRoutes.jsx).

Modelling conventions:
- Machine time is seconds since epoch as Nat; the jsonwebtoken expiresIn
  value of one day is 86400 seconds.
- A JavaScript string-or-undefined value is Option String; the JavaScript
  truthiness test on it rejects both undefined and the empty string, which
  the function truthy captures.
- The MongoDB users collection is a list in insertion (natural) order,
  paired with the next fresh id; findOne is List.find? on that order,
  insertOne appends with a fresh id, updateOne rewrites the first record
  with the matching id (MongoDB ids are unique, which Store.WF records).
- External collaborators (bcrypt, the Google verifier, the Microsoft token
  decoder) are parameters or small models of the library contracts.
- A thrown JavaScript exception caught by the catch-all of a controller is
  the 500 "Internal server error" response.
-/

namespace BlankProject

/-! ### Definitions: the shallow embedding of the subsystem -/

def truthy (x : Option String) : Option String :=
  match x with
  | none => none
  | some s => if s = "" then none else some s

structure Env where
  jwtSecret : Option String
deriving DecidableEq

structure Jwt where
  userId : String
  exp : Nat
  secret : String
deriving DecidableEq

def jwtSign (userId secret : String) (now expiresInSecs : Nat) : Jwt :=
  { userId := userId, exp := now + expiresInSecs, secret := secret }

def jwtVerify (t : Jwt) (secret : Option String) (now : Nat) : Option String :=
  match secret with
  | none => none
  | some s => if t.secret = s ∧ now < t.exp then some t.userId else none

def createToken (env : Env) (userId : String) (now : Nat) : Jwt :=
  jwtSign userId (env.jwtSecret.getD "mysecret") now 86400

inductive AuthResult where
  | unauthorized (message : String)
  | authorized (userId : String)
deriving DecidableEq

def authMiddleware (env : Env) (now : Nat) (header : Option (String × Jwt)) : AuthResult :=
  match header with
  | none => .unauthorized "No auth token provided."
  | some (scheme, tok) =>
    if scheme = "Bearer" then
      match jwtVerify tok env.jwtSecret now with
      | some uid => .authorized uid
      | none => .unauthorized "Invalid or expired token."
    else .unauthorized "Invalid auth header format."

structure UserContextValue where
  isLoggedIn : Bool
  authLoading : Bool
  user : Option String
deriving DecidableEq

def userProviderValue (isLoggedIn authLoading : Bool) : UserContextValue :=
  { isLoggedIn := isLoggedIn, authLoading := authLoading, user := none }

def verifyOutcome (stored : Option String) (serverAccepts : String → Bool) :
    Bool × Bool :=
  match stored with
  | none => (false, false)
  | some t => (serverAccepts t, false)

inductive RouteRender where
  | placeholder
  | redirectToLogin
  | content
deriving DecidableEq

def ProtectRoute (ctx : UserContextValue) : RouteRender :=
  if ctx.authLoading then .placeholder
  else if !ctx.isLoggedIn || ctx.user.isNone then .redirectToLogin
  else .content

structure BcryptHash where
  password : String
  rounds : Nat
deriving DecidableEq

def bcryptHash (password : String) (rounds : Nat) : BcryptHash :=
  { password := password, rounds := rounds }

def bcryptCompare (password : String) (hash : Option BcryptHash) :
    Except String Bool :=
  match hash with
  | none => .error "data and hash arguments required"
  | some h => .ok (h.password == password)

structure User where
  id : Nat
  name : String
  email : String
  passwordHash : Option BcryptHash
  googleId : Option String
  microsoftId : Option String
  createdAt : Nat
deriving DecidableEq

structure Store where
  users : List User
  nextId : Nat
deriving DecidableEq

def Store.empty : Store := { users := [], nextId := 0 }

def Store.WF (s : Store) : Prop :=
  s.users.Pairwise (fun a b => a.id ≠ b.id) ∧ ∀ u ∈ s.users, u.id < s.nextId

def insertOne (s : Store) (mk : Nat → User) : Nat × Store :=
  (s.nextId, { users := s.users ++ [mk s.nextId], nextId := s.nextId + 1 })

def updateById (l : List User) (id : Nat) (f : User → User) : List User :=
  match l with
  | [] => []
  | u :: rest => if u.id = id then f u :: rest else u :: updateById rest id f

def updateOne (s : Store) (id : Nat) (f : User → User) : Store :=
  { s with users := updateById s.users id f }

inductive Response where
  | ok (access : Jwt)
  | error (status : Nat) (message : String)
deriving DecidableEq

def Response.status : Response → Nat
  | .ok _ => 200
  | .error c _ => c

def registerUser (env : Env) (now : Nat) (name email password : String)
    (s : Store) : Response × Store :=
  if name = "" ∨ email = "" ∨ password = "" then
    (.error 400 "Missing fields", s)
  else
    match s.users.find? (fun u => u.email == email) with
    | some _ => (.error 400 "User with that email already exists", s)
    | none =>
      let (userId, s1) := insertOne s (fun i =>
        { id := i, name := name, email := email,
          passwordHash := some (bcryptHash password 10),
          googleId := none, microsoftId := none, createdAt := now })
      (.ok (createToken env (toString userId) now), s1)

def loginUser (env : Env) (now : Nat) (email password : String)
    (s : Store) : Response :=
  if email = "" ∨ password = "" then .error 400 "Missing fields"
  else
    match s.users.find? (fun u => u.email == email) with
    | none => .error 401 "Invalid credentials"
    | some user =>
      match bcryptCompare password user.passwordHash with
      | .error _ => .error 500 "Internal server error"
      | .ok false => .error 401 "Invalid credentials"
      | .ok true => .ok (createToken env (toString user.id) now)

structure GooglePayload where
  sub : Option String
  email : String
  name : Option String
deriving DecidableEq

def googlePred (sub email : String) (u : User) : Bool :=
  u.googleId == some sub || u.email == email

def setGoogleId (sub : String) (v : User) : User :=
  { v with googleId := some sub }

def setMicrosoftId (m : String) (v : User) : User :=
  { v with microsoftId := some m }

def googleCommit (env : Env) (now : Nat) (sub email name : String)
    (found : Option User) (s : Store) : Response × Store :=
  match found with
  | none =>
    let (newId, s1) := insertOne s (fun i =>
      { id := i, name := name, email := email, passwordHash := none,
        googleId := some sub, microsoftId := none, createdAt := now })
    (.ok (createToken env (toString newId) now), s1)
  | some user =>
    if user.googleId.isNone then
      (.ok (createToken env (toString user.id) now),
       updateOne s user.id (setGoogleId sub))
    else
      (.ok (createToken env (toString user.id) now), s)

def googleUpsert (env : Env) (now : Nat) (sub email name : String)
    (s : Store) : Response × Store :=
  googleCommit env now sub email name (s.users.find? (googlePred sub email)) s

def googleAuth (env : Env) (verify : String → Except String GooglePayload)
    (now : Nat) (body : Option String) (s : Store) : Response × Store :=
  match truthy body with
  | none => (.error 400 "Google token not provided", s)
  | some tok =>
    match verify tok with
    | .error _ => (.error 500 "Internal server error", s)
    | .ok payload =>
      match truthy payload.sub with
      | none => (.error 400 "Invalid Google token", s)
      | some sub =>
        googleUpsert env now sub payload.email
          ((truthy payload.name).getD "No Name") s

structure MsClaims where
  preferred_username : Option String
  upn : Option String
  email : Option String
  oid : Option String
  sub : Option String
deriving DecidableEq

def msEmailClaim (d : MsClaims) : Option String :=
  (truthy d.preferred_username).orElse fun _ =>
    (truthy d.upn).orElse fun _ => truthy d.email

def msIdClaim (d : MsClaims) : Option String :=
  (truthy d.oid).orElse fun _ => truthy d.sub

def msPred (msId email : String) (u : User) : Bool :=
  u.microsoftId == some msId || u.email == email

def microsoftCommit (env : Env) (now : Nat) (msId email : String)
    (found : Option User) (s : Store) : Response × Store :=
  match found with
  | none =>
    let (newId, s1) := insertOne s (fun i =>
      { id := i, name := "Microsoft User", email := email, passwordHash := none,
        googleId := none, microsoftId := some msId, createdAt := now })
    (.ok (createToken env (toString newId) now), s1)
  | some user =>
    if user.microsoftId.isNone then
      (.ok (createToken env (toString user.id) now),
       updateOne s user.id (setMicrosoftId msId))
    else
      (.ok (createToken env (toString user.id) now), s)

def microsoftUpsert (env : Env) (now : Nat) (msId email : String)
    (s : Store) : Response × Store :=
  microsoftCommit env now msId email (s.users.find? (msPred msId email)) s

def microsoftAuth (env : Env) (decode : String → Option MsClaims)
    (now : Nat) (body : Option String) (s : Store) : Response × Store :=
  match truthy body with
  | none => (.error 400 "Microsoft token not provided", s)
  | some tok =>
    match decode tok with
    | none => (.error 400 "Invalid MS token", s)
    | some d =>
      match msEmailClaim d with
      | none => (.error 400 "Token missing user email. Cannot proceed.", s)
      | some email =>
        match msIdClaim d with
        | none => (.error 400 "Token missing oid/sub. Cannot proceed.", s)
        | some msId => microsoftUpsert env now msId email s

def apiUsersHandler (_authHeader : Option (String × Jwt)) (s : Store) :
    Nat × List User :=
  (200, s.users)

inductive Op where
  | register (now : Nat) (name email password : String)
  | login (now : Nat) (email password : String)
  | google (now : Nat) (body : Option String)
  | microsoft (now : Nat) (body : Option String)

structure Ctx where
  env : Env
  googleVerify : String → Except String GooglePayload
  msDecode : String → Option MsClaims

def applyOp (c : Ctx) (op : Op) (s : Store) : Response × Store :=
  match op with
  | .register now name email password => registerUser c.env now name email password s
  | .login now email password => (loginUser c.env now email password s, s)
  | .google now body => googleAuth c.env c.googleVerify now body s
  | .microsoft now body => microsoftAuth c.env c.msDecode now body s

def applyOps (c : Ctx) (ops : List Op) (s : Store) : Store :=
  ops.foldl (fun st op => (applyOp c op st).2) s

def emailTaken (e : String) (s : Store) : Prop :=
  ∃ u ∈ s.users, u.email = e

def googleRace (env : Env) (now1 now2 : Nat) (sub1 email1 name1 sub2 email2 name2 : String)
    (s : Store) : Store :=
  let found1 := s.users.find? (googlePred sub1 email1)
  let found2 := s.users.find? (googlePred sub2 email2)
  let s1 := (googleCommit env now1 sub1 email1 name1 found1 s).2
  (googleCommit env now2 sub2 email2 name2 found2 s1).2

def countGoogleSub (sub : String) (s : Store) : Nat :=
  (s.users.filter (fun u => u.googleId == some sub)).length

def envK : Env := { jwtSecret := some "k" }

def fedUser : User :=
  { id := 0, name := "Fed", email := "fed@x.com", passwordHash := none,
    googleId := some "g-1", microsoftId := none, createdAt := 0 }

def aliceUser : User :=
  { id := 1, name := "Alice", email := "alice@x.com",
    passwordHash := some (bcryptHash "right" 10), googleId := none,
    microsoftId := none, createdAt := 0 }

def storeTwo : Store := { users := [fedUser, aliceUser], nextId := 2 }

def linkUser : User :=
  { id := 0, name := "Eve", email := "eve@x.com",
    passwordHash := some (bcryptHash "pw" 10), googleId := none,
    microsoftId := none, createdAt := 0 }

def storeLink : Store := { users := [linkUser], nextId := 1 }

def ctxK : Ctx :=
  { env := envK,
    googleVerify := fun t =>
      if t = "gtok1" ∨ t = "gtok2" then
        .ok { sub := some "g-42", email := "eve@x.com", name := none }
      else .error "invalid signature",
    msDecode := fun t =>
      if t = "mtok1" ∨ t = "mtok2" then
        some { preferred_username := some "eve@x.com", upn := none,
               email := none, oid := some "oid-7", sub := some "sub-7" }
      else none }

def msDecodeNone : String → Option MsClaims := fun _ => none

/-! ### Theorems: helper lemmas, claims, witnesses and counterexamples -/

theorem createToken_authMiddleware_roundtrip (env : Env) (secret uid : String)
    (now t : Nat) (hsec : env.jwtSecret = some secret) :
    authMiddleware env now (some ("Bearer", createToken env uid now)) = .authorized uid ∧
    (now + 86400 ≤ t →
      authMiddleware env t (some ("Bearer", createToken env uid now)) =
        .unauthorized "Invalid or expired token.") := by
  constructor
  · simp [authMiddleware, createToken, jwtSign, jwtVerify, hsec]
  · intro ht
    have hlt : ¬ t < now + 86400 := by omega
    simp [authMiddleware, createToken, jwtSign, jwtVerify, hsec, hlt]

theorem createToken_authMiddleware_roundtrip_witness :
    authMiddleware { jwtSecret := some "s3cret" } 100
        (some ("Bearer", createToken { jwtSecret := some "s3cret" } "user-1" 100)) =
      .authorized "user-1" ∧
    authMiddleware { jwtSecret := some "s3cret" } 90000
        (some ("Bearer", createToken { jwtSecret := some "s3cret" } "user-1" 100)) =
      .unauthorized "Invalid or expired token." :=
  ⟨(createToken_authMiddleware_roundtrip { jwtSecret := some "s3cret" } "s3cret"
      "user-1" 100 90000 rfl).1,
   (createToken_authMiddleware_roundtrip { jwtSecret := some "s3cret" } "s3cret"
      "user-1" 100 90000 rfl).2 (by decide)⟩

theorem protectRoute_render_decision :
    (∀ b : Bool, ProtectRoute (userProviderValue b true) = RouteRender.placeholder) ∧
    ProtectRoute (userProviderValue false false) = RouteRender.redirectToLogin ∧
    (verifyOutcome (some "stored-token") (fun _ => true) = (true, false)) ∧
    ProtectRoute (userProviderValue true false) = RouteRender.redirectToLogin ∧
    ProtectRoute (userProviderValue true false) ≠ RouteRender.content := by
  decide

theorem login_federated_only_counterexample :
    loginUser { jwtSecret := some "s3cret" } 0 "fed@x.com" "pw123456"
        { users := [{ id := 0, name := "Fed", email := "fed@x.com",
                      passwordHash := none, googleId := some "g-1",
                      microsoftId := none, createdAt := 0 }], nextId := 1 } =
      Response.error 500 "Internal server error" ∧
    (loginUser { jwtSecret := some "s3cret" } 0 "fed@x.com" "pw123456"
        { users := [{ id := 0, name := "Fed", email := "fed@x.com",
                      passwordHash := none, googleId := some "g-1",
                      microsoftId := none, createdAt := 0 }], nextId := 1 }).status ≠ 401 := by
  decide

theorem login_error_cases (env : Env) (now : Nat) (email password : String)
    (s : Store) (he : email ≠ "") (hp : password ≠ "") :
    (s.users.find? (fun u => u.email == email) = none →
      loginUser env now email password s = Response.error 401 "Invalid credentials") ∧
    (∀ u, s.users.find? (fun u => u.email == email) = some u →
      (u.passwordHash = none →
        loginUser env now email password s = Response.error 500 "Internal server error") ∧
      (∀ h, u.passwordHash = some h → h.password ≠ password →
        loginUser env now email password s = Response.error 401 "Invalid credentials")) := by
  refine ⟨fun hfind => ?_, fun u hfind => ⟨fun hnone => ?_, fun h hh hne => ?_⟩⟩
  · simp [loginUser, he, hp, hfind]
  · simp [loginUser, he, hp, hfind, bcryptCompare, hnone]
  · have hb : (h.password == password) = false := beq_eq_false_iff_ne.mpr hne
    simp [loginUser, he, hp, hfind, bcryptCompare, hh, hb]

theorem login_error_cases_witness :
    loginUser envK 0 "nobody@x.com" "pw" storeTwo =
      Response.error 401 "Invalid credentials" ∧
    loginUser envK 0 "fed@x.com" "pw" storeTwo =
      Response.error 500 "Internal server error" ∧
    loginUser envK 0 "alice@x.com" "wrong" storeTwo =
      Response.error 401 "Invalid credentials" :=
  ⟨(login_error_cases envK 0 "nobody@x.com" "pw" storeTwo (by decide) (by decide)).1
      (by decide),
   ((login_error_cases envK 0 "fed@x.com" "pw" storeTwo (by decide) (by decide)).2
      fedUser (by decide)).1 rfl,
   (((login_error_cases envK 0 "alice@x.com" "wrong" storeTwo (by decide)
      (by decide)).2 aliceUser (by decide)).2 (bcryptHash "right" 10) rfl
      (by decide))⟩

theorem apiUsers_unprotected_full_dump (hdr hdr2 : Option (String × Jwt))
    (s : Store) :
    apiUsersHandler hdr s = (200, s.users) ∧
    apiUsersHandler hdr s = apiUsersHandler hdr2 s ∧
    ((apiUsersHandler hdr s).2.map
        (fun u => (u.passwordHash, u.googleId, u.microsoftId)) =
      s.users.map (fun u => (u.passwordHash, u.googleId, u.microsoftId))) := by
  exact ⟨rfl, rfl, rfl⟩

theorem find?_append_of_none {α : Type} (p : α → Bool) :
    ∀ (l₁ l₂ : List α), l₁.find? p = none → (l₁ ++ l₂).find? p = l₂.find? p := by
  intro l₁
  induction l₁ with
  | nil => intro l₂ _; rfl
  | cons a t ih =>
    intro l₂ h
    cases hpa : p a with
    | true => rw [List.find?_cons_of_pos _ hpa] at h; cases h
    | false =>
      rw [List.find?_cons_of_neg _ (by simp [hpa])] at h
      rw [List.cons_append, List.find?_cons_of_neg _ (by simp [hpa])]
      exact ih l₂ h

theorem find?_eq_of_unique {α : Type} (p : α → Bool) :
    ∀ (l : List α) (u : α), u ∈ l → p u = true →
      (∀ v ∈ l, p v = true → v = u) → l.find? p = some u := by
  intro l
  induction l with
  | nil => intro u hu; cases hu
  | cons a t ih =>
    intro u hu hpu huniq
    cases hpa : p a with
    | true =>
      have ha : a = u := huniq a (List.mem_cons_self a t) hpa
      rw [List.find?_cons_of_pos _ hpa, ha]
    | false =>
      have hau : u ≠ a := by
        rintro rfl; rw [hpu] at hpa; cases hpa
      have hut : u ∈ t := by
        rcases List.mem_cons.mp hu with h | h
        · exact absurd h hau
        · exact h
      rw [List.find?_cons_of_neg _ (by simp [hpa])]
      exact ih u hut hpu (fun v hv hpv => huniq v (List.mem_cons_of_mem _ hv) hpv)

theorem eq_of_mem_ne_ids :
    ∀ (l : List User), l.Pairwise (fun a b => a.id ≠ b.id) →
      ∀ u v : User, u ∈ l → v ∈ l → u.id = v.id → u = v := by
  intro l
  induction l with
  | nil => intro _ u v hu; cases hu
  | cons x t ih =>
    intro hp u v hu hv hid
    rcases List.pairwise_cons.mp hp with ⟨hx, ht⟩
    rcases List.mem_cons.mp hu with rfl | hu'
    · rcases List.mem_cons.mp hv with rfl | hv'
      · rfl
      · exact absurd hid (hx v hv')
    · rcases List.mem_cons.mp hv with rfl | hv'
      · exact absurd hid.symm (hx u hu')
      · exact ih ht u v hu' hv' hid

theorem updateById_length (aid : Nat) (f : User → User) :
    ∀ l : List User, (updateById l aid f).length = l.length := by
  intro l
  induction l with
  | nil => rfl
  | cons x t ih =>
    by_cases hx : x.id = aid
    · simp only [updateById, if_pos hx, List.length_cons]
    · simp only [updateById, if_neg hx, List.length_cons, ih]

theorem mem_updateById {aid : Nat} {f : User → User} {u' : User} :
    ∀ {l : List User}, u' ∈ updateById l aid f →
      u' ∈ l ∨ ∃ w, w ∈ l ∧ w.id = aid ∧ u' = f w := by
  intro l
  induction l with
  | nil => intro h; cases h
  | cons x t ih =>
    intro h
    by_cases hx : x.id = aid
    · rw [updateById, if_pos hx] at h
      rcases List.mem_cons.mp h with h' | h'
      · exact Or.inr ⟨x, List.mem_cons_self x t, hx, h'⟩
      · exact Or.inl (List.mem_cons_of_mem _ h')
    · rw [updateById, if_neg hx] at h
      rcases List.mem_cons.mp h with h' | h'
      · exact Or.inl (h' ▸ List.mem_cons_self _ _)
      · rcases ih h' with h'' | ⟨w, hw, hwid, hwu⟩
        · exact Or.inl (List.mem_cons_of_mem _ h'')
        · exact Or.inr ⟨w, List.mem_cons_of_mem _ hw, hwid, hwu⟩

theorem updateById_map_of_preserve {β : Type} (g : User → β) (f : User → User)
    (hg : ∀ w, g (f w) = g w) (aid : Nat) :
    ∀ l : List User, (updateById l aid f).map g = l.map g := by
  intro l
  induction l with
  | nil => rfl
  | cons x t ih =>
    by_cases hx : x.id = aid
    · simp only [updateById, if_pos hx, List.map_cons, hg]
    · simp only [updateById, if_neg hx, List.map_cons, ih]

theorem find?_updateById_self (p : User → Bool) (f : User → User) :
    ∀ (l : List User), l.Pairwise (fun a b => a.id ≠ b.id) →
      ∀ u, l.find? p = some u → p (f u) = true →
        (updateById l u.id f).find? p = some (f u) := by
  intro l
  induction l with
  | nil => intro _ u h; simp at h
  | cons x t ih =>
    intro hp u hfind hpfu
    rcases List.pairwise_cons.mp hp with ⟨hx, ht⟩
    cases hpx : p x with
    | true =>
      rw [List.find?_cons_of_pos _ hpx] at hfind
      injection hfind with hxu
      subst hxu
      rw [updateById, if_pos rfl]
      exact List.find?_cons_of_pos _ hpfu
    | false =>
      rw [List.find?_cons_of_neg _ (by simp [hpx])] at hfind
      have hu_mem : u ∈ t := List.mem_of_find?_eq_some hfind
      have hxu : ¬ x.id = u.id := hx u hu_mem
      rw [updateById, if_neg hxu]
      rw [List.find?_cons_of_neg _ (by simp [hpx])]
      exact ih ht u hfind hpfu

theorem googleUpsert_resolves (env : Env) (now : Nat) (sub email name : String)
    (s : Store) (hwf : s.WF) :
    ∃ u : User,
      (googleUpsert env now sub email name s).1 =
        Response.ok (createToken env (toString u.id) now) ∧
      (googleUpsert env now sub email name s).2.users.find? (googlePred sub email) =
        some u ∧
      u.googleId.isSome := by
  cases hfind : s.users.find? (googlePred sub email) with
  | none =>
    refine ⟨{ id := s.nextId, name := name, email := email, passwordHash := none,
              googleId := some sub, microsoftId := none, createdAt := now },
            ?_, ?_, rfl⟩
    · simp [googleUpsert, hfind, googleCommit, insertOne]
    · simp only [googleUpsert, hfind, googleCommit, insertOne]
      rw [find?_append_of_none _ _ _ hfind]
      exact List.find?_cons_of_pos _ (by simp [googlePred])
  | some user =>
    cases hg : user.googleId with
    | none =>
      refine ⟨setGoogleId sub user, ?_, ?_, rfl⟩
      · simp [googleUpsert, hfind, googleCommit, hg, setGoogleId]
      · simp only [googleUpsert, hfind, googleCommit, hg, Option.isNone_none,
          if_true, updateOne]
        exact find?_updateById_self _ _ s.users hwf.1 user hfind
          (by simp [googlePred, setGoogleId])
    | some g =>
      refine ⟨user, ?_, ?_, by simp [hg]⟩
      · simp [googleUpsert, hfind, googleCommit, hg]
      · simp [googleUpsert, hfind, googleCommit, hg]

theorem googleAuth_reduces (env : Env) (verify : String → Except String GooglePayload)
    (now : Nat) (tok sub email : String) (name : Option String) (s : Store)
    (ht : tok ≠ "")
    (hv : verify tok = .ok { sub := some sub, email := email, name := name })
    (hsub : sub ≠ "") :
    googleAuth env verify now (some tok) s =
      googleUpsert env now sub email ((truthy name).getD "No Name") s := by
  simp [googleAuth, truthy, ht, hv, hsub]

theorem googleUpsert_skip (env : Env) (now : Nat) (sub email name : String)
    (s : Store) (u : User)
    (hfind : s.users.find? (googlePred sub email) = some u)
    (hsome : u.googleId.isSome = true) :
    googleUpsert env now sub email name s =
      (Response.ok (createToken env (toString u.id) now), s) := by
  have hnn : u.googleId.isNone = false := by
    cases h : u.googleId with
    | none => rw [h] at hsome; cases hsome
    | some g => rfl
  simp [googleUpsert, hfind, googleCommit, hnn]

theorem googleAuth_idempotent_upsert (env : Env)
    (verify : String → Except String GooglePayload)
    (now1 now2 : Nat) (tok1 tok2 sub email : String)
    (name1 name2 : Option String) (s : Store)
    (hwf : s.WF) (hsub : sub ≠ "") (ht1 : tok1 ≠ "") (ht2 : tok2 ≠ "")
    (hv1 : verify tok1 = .ok { sub := some sub, email := email, name := name1 })
    (hv2 : verify tok2 = .ok { sub := some sub, email := email, name := name2 }) :
    ∃ uid : Nat,
      (googleAuth env verify now1 (some tok1) s).1 =
        Response.ok (createToken env (toString uid) now1) ∧
      (googleAuth env verify now2 (some tok2)
          (googleAuth env verify now1 (some tok1) s).2).1 =
        Response.ok (createToken env (toString uid) now2) ∧
      (googleAuth env verify now2 (some tok2)
          (googleAuth env verify now1 (some tok1) s).2).2 =
        (googleAuth env verify now1 (some tok1) s).2 := by
  have e1 := googleAuth_reduces env verify now1 tok1 sub email name1 s ht1 hv1 hsub
  obtain ⟨u, hr1, hfind1, hsome⟩ :=
    googleUpsert_resolves env now1 sub email ((truthy name1).getD "No Name") s hwf
  have e2 := googleAuth_reduces env verify now2 tok2 sub email name2
    (googleUpsert env now1 sub email ((truthy name1).getD "No Name") s).2 ht2 hv2 hsub
  have e3 := googleUpsert_skip env now2 sub email ((truthy name2).getD "No Name")
    (googleUpsert env now1 sub email ((truthy name1).getD "No Name") s).2 u hfind1 hsome
  refine ⟨u.id, ?_, ?_, ?_⟩
  · rw [e1]; exact hr1
  · rw [e1, e2, e3]
  · rw [e1, e2, e3]

theorem applyOp_store_cases (c : Ctx) (op : Op) (s : Store) :
    (applyOp c op s).2 = s ∨
    (∃ w : User, w.id = s.nextId ∧
      (applyOp c op s).2 = { users := s.users ++ [w], nextId := s.nextId + 1 }) ∨
    (∃ u₀ sub, u₀ ∈ s.users ∧ u₀.googleId = none ∧
      (applyOp c op s).2 = updateOne s u₀.id (setGoogleId sub)) ∨
    (∃ u₀ m, u₀ ∈ s.users ∧ u₀.microsoftId = none ∧
      (applyOp c op s).2 = updateOne s u₀.id (setMicrosoftId m)) := by
  cases op with
  | register now name email password =>
    by_cases hval : name = "" ∨ email = "" ∨ password = ""
    · left; simp [applyOp, registerUser, hval]
    · cases hfind : s.users.find? (fun u => u.email == email) with
      | some u => left; simp [applyOp, registerUser, hval, hfind]
      | none =>
        right; left
        refine ⟨{ id := s.nextId, name := name, email := email,
                  passwordHash := some (bcryptHash password 10),
                  googleId := none, microsoftId := none, createdAt := now },
                rfl, ?_⟩
        simp [applyOp, registerUser, hval, hfind, insertOne]
  | login now email password => left; rfl
  | google now body =>
    cases htb : truthy body with
    | none => left; simp [applyOp, googleAuth, htb]
    | some tok =>
      cases hv : c.googleVerify tok with
      | error e => left; simp [applyOp, googleAuth, htb, hv]
      | ok payload =>
        cases hts : truthy payload.sub with
        | none => left; simp [applyOp, googleAuth, htb, hv, hts]
        | some sub =>
          cases hfind : s.users.find? (googlePred sub payload.email) with
          | none =>
            right; left
            refine ⟨{ id := s.nextId, name := (truthy payload.name).getD "No Name",
                      email := payload.email, passwordHash := none,
                      googleId := some sub, microsoftId := none, createdAt := now },
                    rfl, ?_⟩
            simp [applyOp, googleAuth, htb, hv, hts, googleUpsert, hfind,
              googleCommit, insertOne]
          | some u₀ =>
            cases hg : u₀.googleId with
            | none =>
              right; right; left
              refine ⟨u₀, sub, List.mem_of_find?_eq_some hfind, hg, ?_⟩
              simp [applyOp, googleAuth, htb, hv, hts, googleUpsert, hfind,
                googleCommit, hg, updateOne]
            | some g =>
              left
              simp [applyOp, googleAuth, htb, hv, hts, googleUpsert, hfind,
                googleCommit, hg]
  | microsoft now body =>
    cases htb : truthy body with
    | none => left; simp [applyOp, microsoftAuth, htb]
    | some tok =>
      cases hd : c.msDecode tok with
      | none => left; simp [applyOp, microsoftAuth, htb, hd]
      | some d =>
        cases he : msEmailClaim d with
        | none => left; simp [applyOp, microsoftAuth, htb, hd, he]
        | some email =>
          cases hm : msIdClaim d with
          | none => left; simp [applyOp, microsoftAuth, htb, hd, he, hm]
          | some msId =>
            cases hfind : s.users.find? (msPred msId email) with
            | none =>
              right; left
              refine ⟨{ id := s.nextId, name := "Microsoft User", email := email,
                        passwordHash := none, googleId := none,
                        microsoftId := some msId, createdAt := now }, rfl, ?_⟩
              simp [applyOp, microsoftAuth, htb, hd, he, hm, microsoftUpsert,
                hfind, microsoftCommit, insertOne]
            | some u₀ =>
              cases hms : u₀.microsoftId with
              | none =>
                right; right; right
                refine ⟨u₀, msId, List.mem_of_find?_eq_some hfind, hms, ?_⟩
                simp [applyOp, microsoftAuth, htb, hd, he, hm, microsoftUpsert,
                  hfind, microsoftCommit, hms, updateOne]
              | some m =>
                left
                simp [applyOp, microsoftAuth, htb, hd, he, hm, microsoftUpsert,
                  hfind, microsoftCommit, hms]

theorem emailTaken_applyOp (c : Ctx) (op : Op) (s : Store) (e : String)
    (h : emailTaken e s) : emailTaken e (applyOp c op s).2 := by
  obtain ⟨u, hu, hue⟩ := h
  rcases applyOp_store_cases c op s with h1 | ⟨w, _, h1⟩ |
    ⟨u₀, sub, _, _, h1⟩ | ⟨u₀, m, _, _, h1⟩ <;> rw [h1]
  · exact ⟨u, hu, hue⟩
  · exact ⟨u, List.mem_append_left _ hu, hue⟩
  · have hmap := updateById_map_of_preserve (fun v => v.email)
      (setGoogleId sub) (fun w => rfl) u₀.id s.users
    have hin : u.email ∈ (updateById s.users u₀.id (setGoogleId sub)).map
        (fun v => v.email) := by
      rw [hmap]; exact List.mem_map_of_mem _ hu
    obtain ⟨u', hu', he'⟩ := List.mem_map.mp hin
    exact ⟨u', hu', he'.trans hue⟩
  · have hmap := updateById_map_of_preserve (fun v => v.email)
      (setMicrosoftId m) (fun w => rfl) u₀.id s.users
    have hin : u.email ∈ (updateById s.users u₀.id (setMicrosoftId m)).map
        (fun v => v.email) := by
      rw [hmap]; exact List.mem_map_of_mem _ hu
    obtain ⟨u', hu', he'⟩ := List.mem_map.mp hin
    exact ⟨u', hu', he'.trans hue⟩

theorem emailTaken_applyOps (c : Ctx) (ops : List Op) :
    ∀ (s : Store) (e : String), emailTaken e s → emailTaken e (applyOps c ops s) := by
  induction ops with
  | nil => intro s e h; exact h
  | cons op rest ih =>
    intro s e h
    exact ih (applyOp c op s).2 e (emailTaken_applyOp c op s e h)

theorem microsoftUpsert_resolves (env : Env) (now : Nat) (msId email : String)
    (s : Store) (hwf : s.WF) :
    ∃ u : User,
      (microsoftUpsert env now msId email s).1 =
        Response.ok (createToken env (toString u.id) now) ∧
      (microsoftUpsert env now msId email s).2.users.find? (msPred msId email) =
        some u ∧
      u.microsoftId.isSome := by
  cases hfind : s.users.find? (msPred msId email) with
  | none =>
    refine ⟨{ id := s.nextId, name := "Microsoft User", email := email,
              passwordHash := none, googleId := none,
              microsoftId := some msId, createdAt := now }, ?_, ?_, rfl⟩
    · simp [microsoftUpsert, hfind, microsoftCommit, insertOne]
    · simp only [microsoftUpsert, hfind, microsoftCommit, insertOne]
      rw [find?_append_of_none _ _ _ hfind]
      exact List.find?_cons_of_pos _ (by simp [msPred])
  | some user =>
    cases hm : user.microsoftId with
    | none =>
      refine ⟨setMicrosoftId msId user, ?_, ?_, rfl⟩
      · simp [microsoftUpsert, hfind, microsoftCommit, hm, setMicrosoftId]
      · simp only [microsoftUpsert, hfind, microsoftCommit, hm, Option.isNone_none,
          if_true, updateOne]
        exact find?_updateById_self _ _ s.users hwf.1 user hfind
          (by simp [msPred, setMicrosoftId])
    | some m =>
      refine ⟨user, ?_, ?_, by simp [hm]⟩
      · simp [microsoftUpsert, hfind, microsoftCommit, hm]
      · simp [microsoftUpsert, hfind, microsoftCommit, hm]

theorem microsoftAuth_reduces (env : Env) (decode : String → Option MsClaims)
    (now : Nat) (tok msId email : String) (s : Store) (d : MsClaims)
    (ht : tok ≠ "") (hd : decode tok = some d)
    (he : msEmailClaim d = some email) (hm : msIdClaim d = some msId) :
    microsoftAuth env decode now (some tok) s = microsoftUpsert env now msId email s := by
  simp [microsoftAuth, truthy, ht, hd, he, hm]

theorem microsoftUpsert_skip (env : Env) (now : Nat) (msId email : String)
    (s : Store) (u : User)
    (hfind : s.users.find? (msPred msId email) = some u)
    (hsome : u.microsoftId.isSome = true) :
    microsoftUpsert env now msId email s =
      (Response.ok (createToken env (toString u.id) now), s) := by
  have hnn : u.microsoftId.isNone = false := by
    cases h : u.microsoftId with
    | none => rw [h] at hsome; cases hsome
    | some m => rfl
  simp [microsoftUpsert, hfind, microsoftCommit, hnn]

theorem microsoftUpsert_ok (env : Env) (now : Nat) (msId email : String)
    (s : Store) :
    ∃ j, (microsoftUpsert env now msId email s).1 = Response.ok j := by
  cases hfind : s.users.find? (msPred msId email) with
  | none =>
    exact ⟨createToken env (toString s.nextId) now,
      by simp [microsoftUpsert, hfind, microsoftCommit, insertOne]⟩
  | some u =>
    cases hm : u.microsoftId with
    | none =>
      exact ⟨createToken env (toString u.id) now,
        by simp [microsoftUpsert, hfind, microsoftCommit, hm]⟩
    | some m =>
      exact ⟨createToken env (toString u.id) now,
        by simp [microsoftUpsert, hfind, microsoftCommit, hm]⟩

theorem register_succeeds_once (c : Ctx) (now : Nat) (name email password : String)
    (s : Store) (hn : name ≠ "") (he : email ≠ "") (hp : password ≠ "")
    (hfresh : ∀ u ∈ s.users, u.email ≠ email) :
    (registerUser c.env now name email password s).1 =
      Response.ok (createToken c.env (toString s.nextId) now) ∧
    (registerUser c.env now name email password s).2.users =
      s.users ++ [{ id := s.nextId, name := name, email := email,
                    passwordHash := some (bcryptHash password 10),
                    googleId := none, microsoftId := none, createdAt := now }] ∧
    (∀ (ops : List Op) (now2 : Nat) (name2 password2 : String),
      name2 ≠ "" → password2 ≠ "" →
      registerUser c.env now2 name2 email password2
          (applyOps c ops (registerUser c.env now name email password s).2) =
        (Response.error 400 "User with that email already exists",
         applyOps c ops (registerUser c.env now name email password s).2)) := by
  have hfind : s.users.find? (fun u => u.email == email) = none := by
    rw [List.find?_eq_none]
    intro u hu
    simpa using hfresh u hu
  have hval : ¬(name = "" ∨ email = "" ∨ password = "") := by
    simp [hn, he, hp]
  have husers : (registerUser c.env now name email password s).2.users =
      s.users ++ [{ id := s.nextId, name := name, email := email,
                    passwordHash := some (bcryptHash password 10),
                    googleId := none, microsoftId := none, createdAt := now }] := by
    simp [registerUser, hval, hfind, insertOne]
  refine ⟨?_, husers, ?_⟩
  · simp [registerUser, hval, hfind, insertOne]
  · intro ops now2 name2 password2 hn2 hp2
    have htaken : emailTaken email (registerUser c.env now name email password s).2 := by
      refine ⟨{ id := s.nextId, name := name, email := email,
                passwordHash := some (bcryptHash password 10),
                googleId := none, microsoftId := none, createdAt := now }, ?_, rfl⟩
      rw [husers]
      exact List.mem_append_right _ (List.mem_singleton_self _)
    obtain ⟨u', hu', hue⟩ := emailTaken_applyOps c ops _ email htaken
    have hval2 : ¬(name2 = "" ∨ email = "" ∨ password2 = "") := by
      simp [hn2, he, hp2]
    generalize hS : applyOps c ops (registerUser c.env now name email password s).2 = S at hu' ⊢
    cases hfind2 : S.users.find? (fun u => u.email == email) with
    | none =>
      rw [List.find?_eq_none] at hfind2
      exact absurd (by simp [hue]) (hfind2 u' hu')
    | some w =>
      simp [registerUser, hval2, hfind2]

theorem microsoftAuth_idempotent_upsert (env : Env)
    (decode : String → Option MsClaims) (now1 now2 : Nat)
    (tok1 tok2 msId email : String) (d1 d2 : MsClaims) (s : Store)
    (hwf : s.WF) (ht1 : tok1 ≠ "") (ht2 : tok2 ≠ "")
    (hd1 : decode tok1 = some d1) (he1 : msEmailClaim d1 = some email)
    (hm1 : msIdClaim d1 = some msId)
    (hd2 : decode tok2 = some d2) (he2 : msEmailClaim d2 = some email)
    (hm2 : msIdClaim d2 = some msId) :
    ∃ uid : Nat,
      (microsoftAuth env decode now1 (some tok1) s).1 =
        Response.ok (createToken env (toString uid) now1) ∧
      (microsoftAuth env decode now2 (some tok2)
          (microsoftAuth env decode now1 (some tok1) s).2).1 =
        Response.ok (createToken env (toString uid) now2) ∧
      (microsoftAuth env decode now2 (some tok2)
          (microsoftAuth env decode now1 (some tok1) s).2).2 =
        (microsoftAuth env decode now1 (some tok1) s).2 := by
  have e1 := microsoftAuth_reduces env decode now1 tok1 msId email s d1 ht1 hd1 he1 hm1
  obtain ⟨u, hr1, hfind1, hsome⟩ := microsoftUpsert_resolves env now1 msId email s hwf
  have e2 := microsoftAuth_reduces env decode now2 tok2 msId email
    (microsoftUpsert env now1 msId email s).2 d2 ht2 hd2 he2 hm2
  have e3 := microsoftUpsert_skip env now2 msId email
    (microsoftUpsert env now1 msId email s).2 u hfind1 hsome
  refine ⟨u.id, ?_, ?_, ?_⟩
  · rw [e1]; exact hr1
  · rw [e1, e2, e3]
  · rw [e1, e2, e3]

theorem federatedLogin_idempotent (c : Ctx) (s : Store) (hwf : s.WF) :
    (∀ (now1 now2 : Nat) (tok1 tok2 sub email : String)
        (name1 name2 : Option String),
      sub ≠ "" → tok1 ≠ "" → tok2 ≠ "" →
      c.googleVerify tok1 = .ok { sub := some sub, email := email, name := name1 } →
      c.googleVerify tok2 = .ok { sub := some sub, email := email, name := name2 } →
      ∃ uid : Nat,
        (googleAuth c.env c.googleVerify now1 (some tok1) s).1 =
          Response.ok (createToken c.env (toString uid) now1) ∧
        (googleAuth c.env c.googleVerify now2 (some tok2)
            (googleAuth c.env c.googleVerify now1 (some tok1) s).2).1 =
          Response.ok (createToken c.env (toString uid) now2) ∧
        (googleAuth c.env c.googleVerify now2 (some tok2)
            (googleAuth c.env c.googleVerify now1 (some tok1) s).2).2 =
          (googleAuth c.env c.googleVerify now1 (some tok1) s).2) ∧
    (∀ (now1 now2 : Nat) (tok1 tok2 msId email : String) (d1 d2 : MsClaims),
      tok1 ≠ "" → tok2 ≠ "" →
      c.msDecode tok1 = some d1 → msEmailClaim d1 = some email →
      msIdClaim d1 = some msId →
      c.msDecode tok2 = some d2 → msEmailClaim d2 = some email →
      msIdClaim d2 = some msId →
      ∃ uid : Nat,
        (microsoftAuth c.env c.msDecode now1 (some tok1) s).1 =
          Response.ok (createToken c.env (toString uid) now1) ∧
        (microsoftAuth c.env c.msDecode now2 (some tok2)
            (microsoftAuth c.env c.msDecode now1 (some tok1) s).2).1 =
          Response.ok (createToken c.env (toString uid) now2) ∧
        (microsoftAuth c.env c.msDecode now2 (some tok2)
            (microsoftAuth c.env c.msDecode now1 (some tok1) s).2).2 =
          (microsoftAuth c.env c.msDecode now1 (some tok1) s).2) := by
  constructor
  · intro now1 now2 tok1 tok2 sub email name1 name2 hsub ht1 ht2 hv1 hv2
    exact googleAuth_idempotent_upsert c.env c.googleVerify now1 now2 tok1 tok2
      sub email name1 name2 s hwf hsub ht1 ht2 hv1 hv2
  · intro now1 now2 tok1 tok2 msId email d1 d2 ht1 ht2 hd1 he1 hm1 hd2 he2 hm2
    exact microsoftAuth_idempotent_upsert c.env c.msDecode now1 now2 tok1 tok2
      msId email d1 d2 s hwf ht1 ht2 hd1 he1 hm1 hd2 he2 hm2

theorem applyOp_field_mono (c : Ctx) (op : Op) (s : Store) (hwf : s.WF)
    (u : User) (hu : u ∈ s.users) :
    ∀ u' ∈ (applyOp c op s).2.users, u'.id = u.id →
      (u'.googleId = u.googleId ∨ u.googleId = none) ∧
      (u'.microsoftId = u.microsoftId ∨ u.microsoftId = none) := by
  intro u' hu' hid
  rcases applyOp_store_cases c op s with h1 | ⟨w, hwid, h1⟩ |
    ⟨u₀, sub, hu₀, hg₀, h1⟩ | ⟨u₀, m, hu₀, hm₀, h1⟩
  · rw [h1] at hu'
    rw [eq_of_mem_ne_ids s.users hwf.1 u' u hu' hu hid]
    exact ⟨Or.inl rfl, Or.inl rfl⟩
  · rw [h1] at hu'
    rcases List.mem_append.mp hu' with h' | h'
    · rw [eq_of_mem_ne_ids s.users hwf.1 u' u h' hu hid]
      exact ⟨Or.inl rfl, Or.inl rfl⟩
    · have hw : u' = w := by simpa using h'
      have hlt := hwf.2 u hu
      subst hw
      rw [hwid] at hid
      omega
  · rw [h1] at hu'
    rcases mem_updateById hu' with h' | ⟨w, hw', hwid, hufw⟩
    · rw [eq_of_mem_ne_ids s.users hwf.1 u' u h' hu hid]
      exact ⟨Or.inl rfl, Or.inl rfl⟩
    · have hwu : w.id = u.id := by
        rw [hufw] at hid
        simpa [setGoogleId] using hid
      have hweq : w = u := eq_of_mem_ne_ids s.users hwf.1 w u hw' hu hwu
      subst hweq
      have hu₀eq : u₀ = w := by
        apply eq_of_mem_ne_ids s.users hwf.1 u₀ w hu₀ hu
        rw [← hwid]
      subst hu₀eq
      rw [hufw]
      exact ⟨Or.inr hg₀, Or.inl (by simp [setGoogleId])⟩
  · rw [h1] at hu'
    rcases mem_updateById hu' with h' | ⟨w, hw', hwid, hufw⟩
    · rw [eq_of_mem_ne_ids s.users hwf.1 u' u h' hu hid]
      exact ⟨Or.inl rfl, Or.inl rfl⟩
    · have hwu : w.id = u.id := by
        rw [hufw] at hid
        simpa [setMicrosoftId] using hid
      have hweq : w = u := eq_of_mem_ne_ids s.users hwf.1 w u hw' hu hwu
      subst hweq
      have hu₀eq : u₀ = w := by
        apply eq_of_mem_ne_ids s.users hwf.1 u₀ w hu₀ hu
        rw [← hwid]
      subst hu₀eq
      rw [hufw]
      exact ⟨Or.inl (by simp [setMicrosoftId]), Or.inr hm₀⟩

theorem federated_link_and_monotonic (c : Ctx) (s : Store) (hwf : s.WF) :
    (∀ (now : Nat) (tok sub email : String) (name : Option String) (u : User),
      tok ≠ "" → sub ≠ "" →
      c.googleVerify tok = .ok { sub := some sub, email := email, name := name } →
      u ∈ s.users → u.email = email → u.googleId = none →
      (∀ v ∈ s.users, v.googleId ≠ some sub) →
      (∀ v ∈ s.users, v.email = email → v = u) →
      (googleAuth c.env c.googleVerify now (some tok) s).1 =
          Response.ok (createToken c.env (toString u.id) now) ∧
      (googleAuth c.env c.googleVerify now (some tok) s).2.users.length =
          s.users.length ∧
      setGoogleId sub u ∈ (googleAuth c.env c.googleVerify now (some tok) s).2.users) ∧
    (∀ (now : Nat) (tok msId email : String) (d : MsClaims) (u : User),
      tok ≠ "" →
      c.msDecode tok = some d → msEmailClaim d = some email →
      msIdClaim d = some msId →
      u ∈ s.users → u.email = email → u.microsoftId = none →
      (∀ v ∈ s.users, v.microsoftId ≠ some msId) →
      (∀ v ∈ s.users, v.email = email → v = u) →
      (microsoftAuth c.env c.msDecode now (some tok) s).1 =
          Response.ok (createToken c.env (toString u.id) now) ∧
      (microsoftAuth c.env c.msDecode now (some tok) s).2.users.length =
          s.users.length ∧
      setMicrosoftId msId u ∈ (microsoftAuth c.env c.msDecode now (some tok) s).2.users) ∧
    (∀ (op : Op) (u : User), u ∈ s.users →
      (∀ g, u.googleId = some g →
        ∀ u' ∈ (applyOp c op s).2.users, u'.id = u.id → u'.googleId = some g) ∧
      (∀ m, u.microsoftId = some m →
        ∀ u' ∈ (applyOp c op s).2.users, u'.id = u.id → u'.microsoftId = some m)) := by
  refine ⟨?_, ?_, ?_⟩
  · intro now tok sub email name u ht hsub hv hu hue hg hnosub huniq
    have hfind : s.users.find? (googlePred sub email) = some u := by
      apply find?_eq_of_unique _ _ u hu
      · simp [googlePred, hg, hue]
      · intro v hv' hpv
        rcases (by simpa [googlePred] using hpv :
            v.googleId = some sub ∨ v.email = email) with h | h
        · exact absurd h (hnosub v hv')
        · exact huniq v hv' h
    have e1 := googleAuth_reduces c.env c.googleVerify now tok sub email name s ht hv hsub
    have e2 : googleUpsert c.env now sub email ((truthy name).getD "No Name") s =
        (Response.ok (createToken c.env (toString u.id) now),
         updateOne s u.id (setGoogleId sub)) := by
      simp [googleUpsert, hfind, googleCommit, hg]
    rw [e1, e2]
    refine ⟨rfl, ?_, ?_⟩
    · simp [updateOne, updateById_length]
    · have hfind2 := find?_updateById_self (googlePred sub email) (setGoogleId sub)
        s.users hwf.1 u hfind (by simp [googlePred, setGoogleId])
      exact List.mem_of_find?_eq_some hfind2
  · intro now tok msId email d u ht hd he hm hu hue hms hnosub huniq
    have hfind : s.users.find? (msPred msId email) = some u := by
      apply find?_eq_of_unique _ _ u hu
      · simp [msPred, hms, hue]
      · intro v hv' hpv
        rcases (by simpa [msPred] using hpv :
            v.microsoftId = some msId ∨ v.email = email) with h | h
        · exact absurd h (hnosub v hv')
        · exact huniq v hv' h
    have e1 := microsoftAuth_reduces c.env c.msDecode now tok msId email s d ht hd he hm
    have e2 : microsoftUpsert c.env now msId email s =
        (Response.ok (createToken c.env (toString u.id) now),
         updateOne s u.id (setMicrosoftId msId)) := by
      simp [microsoftUpsert, hfind, microsoftCommit, hms]
    rw [e1, e2]
    refine ⟨rfl, ?_, ?_⟩
    · simp [updateOne, updateById_length]
    · have hfind2 := find?_updateById_self (msPred msId email) (setMicrosoftId msId)
        s.users hwf.1 u hfind (by simp [msPred, setMicrosoftId])
      exact List.mem_of_find?_eq_some hfind2
  · intro op u hu
    constructor
    · intro g hg u' hu' hid
      rcases (applyOp_field_mono c op s hwf u hu u' hu' hid).1 with h | h
      · rw [h, hg]
      · rw [h] at hg; cases hg
    · intro m hm u' hu' hid
      rcases (applyOp_field_mono c op s hwf u hu u' hu' hid).2 with h | h
      · rw [h, hm]
      · rw [h] at hm; cases hm

theorem googleRace_duplicate_records :
    countGoogleSub "g-42"
        (googleRace { jwtSecret := some "k" } 0 1 "g-42" "new@x.com" "No Name"
          "g-42" "new@x.com" "No Name" Store.empty) = 2 ∧
    countGoogleSub "g-42"
        (googleRace { jwtSecret := some "k" } 0 1 "g-42" "new@x.com" "No Name"
          "g-42" "new@x.com" "No Name" Store.empty) ≠ 1 := by
  decide

theorem googleAuth_rejected_counterexample :
    (googleAuth { jwtSecret := some "k" }
        (fun _ => .error "invalid signature or audience") 0 (some "bad-token")
        Store.empty).1 = Response.error 500 "Internal server error" ∧
    (googleAuth { jwtSecret := some "k" }
        (fun _ => .error "invalid signature or audience") 0 (some "bad-token")
        Store.empty).1.status ≠ 400 := by
  decide

theorem googleAuth_rejected_token_500 (env : Env)
    (verify : String → Except String GooglePayload) (now : Nat)
    (tok e : String) (s : Store) (ht : tok ≠ "")
    (hv : verify tok = .error e) :
    googleAuth env verify now (some tok) s =
      (Response.error 500 "Internal server error", s) ∧
    googleAuth env verify now none s =
      (Response.error 400 "Google token not provided", s) := by
  constructor
  · simp [googleAuth, truthy, ht, hv]
  · simp [googleAuth, truthy]

theorem microsoftAuth_claim_resolution (env : Env)
    (decode : String → Option MsClaims) (now : Nat) (tok : String) (s : Store)
    (ht : tok ≠ "") :
    ((∃ msg, (microsoftAuth env decode now (some tok) s).1 = Response.error 400 msg) ↔
      (decode tok = none ∨
        ∃ d, decode tok = some d ∧ (msEmailClaim d = none ∨ msIdClaim d = none))) ∧
    (∀ (d : MsClaims) (email msId : String), decode tok = some d →
      msEmailClaim d = some email → msIdClaim d = some msId →
      microsoftAuth env decode now (some tok) s = microsoftUpsert env now msId email s) ∧
    (∀ (d : MsClaims) (e : String), truthy d.preferred_username = some e →
      msEmailClaim d = some e) ∧
    (∀ d : MsClaims, truthy d.preferred_username = none →
      msEmailClaim d = (truthy d.upn).orElse (fun _ => truthy d.email)) ∧
    (∀ (d : MsClaims) (i : String), truthy d.oid = some i → msIdClaim d = some i) ∧
    (∀ d : MsClaims, truthy d.oid = none → msIdClaim d = truthy d.sub) := by
  refine ⟨⟨?_, ?_⟩, ?_, ?_, ?_, ?_, ?_⟩
  · rintro ⟨msg, hmsg⟩
    cases hd : decode tok with
    | none => exact Or.inl rfl
    | some d =>
      refine Or.inr ⟨d, rfl, ?_⟩
      cases he : msEmailClaim d with
      | none => exact Or.inl rfl
      | some email =>
        cases hm : msIdClaim d with
        | none => exact Or.inr rfl
        | some msId =>
          exfalso
          have hred := microsoftAuth_reduces env decode now tok msId email s d ht hd he hm
          obtain ⟨j, hj⟩ := microsoftUpsert_ok env now msId email s
          rw [hred, hj] at hmsg
          cases hmsg
  · rintro (hd | ⟨d, hd, hfail⟩)
    · exact ⟨"Invalid MS token", by simp [microsoftAuth, truthy, ht, hd]⟩
    · cases he : msEmailClaim d with
      | none =>
        exact ⟨"Token missing user email. Cannot proceed.",
          by simp [microsoftAuth, truthy, ht, hd, he]⟩
      | some email =>
        rcases hfail with h | hm
        · rw [he] at h; cases h
        · exact ⟨"Token missing oid/sub. Cannot proceed.",
            by simp [microsoftAuth, truthy, ht, hd, he, hm]⟩
  · intro d email msId hd he hm
    exact microsoftAuth_reduces env decode now tok msId email s d ht hd he hm
  · intro d e hpe
    rw [msEmailClaim, hpe]; rfl
  · intro d hpe
    rw [msEmailClaim, hpe]; rfl
  · intro d i hoid
    rw [msIdClaim, hoid]; rfl
  · intro d hoid
    rw [msIdClaim, hoid]; rfl

theorem storeEmpty_wf : Store.WF Store.empty :=
  ⟨List.Pairwise.nil, by intro u hu; cases hu⟩

theorem storeLink_wf : Store.WF storeLink := by
  constructor
  · exact List.pairwise_singleton _ _
  · intro u hu
    rw [List.mem_singleton.mp hu]
    decide

theorem register_succeeds_once_witness :
    (registerUser ctxK.env 3 "Alice" "alice2@x.com" "pw123456" Store.empty).1 =
      Response.ok (createToken ctxK.env (toString Store.empty.nextId) 3) :=
  (register_succeeds_once ctxK 3 "Alice" "alice2@x.com" "pw123456" Store.empty
    (by decide) (by decide) (by decide) (by decide)).1

theorem federatedLogin_idempotent_witness :
    ∃ uid : Nat,
      (googleAuth ctxK.env ctxK.googleVerify 0 (some "gtok1") storeLink).1 =
        Response.ok (createToken ctxK.env (toString uid) 0) ∧
      (googleAuth ctxK.env ctxK.googleVerify 1 (some "gtok2")
          (googleAuth ctxK.env ctxK.googleVerify 0 (some "gtok1") storeLink).2).1 =
        Response.ok (createToken ctxK.env (toString uid) 1) ∧
      (googleAuth ctxK.env ctxK.googleVerify 1 (some "gtok2")
          (googleAuth ctxK.env ctxK.googleVerify 0 (some "gtok1") storeLink).2).2 =
        (googleAuth ctxK.env ctxK.googleVerify 0 (some "gtok1") storeLink).2 :=
  (federatedLogin_idempotent ctxK storeLink storeLink_wf).1 0 1 "gtok1" "gtok2"
    "g-42" "eve@x.com" none none (by decide) (by decide) (by decide) rfl rfl

theorem federated_link_and_monotonic_witness :
    (googleAuth ctxK.env ctxK.googleVerify 9 (some "gtok1") storeLink).1 =
      Response.ok (createToken ctxK.env (toString linkUser.id) 9) ∧
    (googleAuth ctxK.env ctxK.googleVerify 9 (some "gtok1") storeLink).2.users.length =
      storeLink.users.length ∧
    setGoogleId "g-42" linkUser ∈
      (googleAuth ctxK.env ctxK.googleVerify 9 (some "gtok1") storeLink).2.users :=
  (federated_link_and_monotonic ctxK storeLink storeLink_wf).1 9 "gtok1" "g-42"
    "eve@x.com" none linkUser (by decide) (by decide) rfl (by decide)
    (by decide) (by decide) (by decide) (by decide)

theorem googleAuth_rejected_token_500_witness :
    googleAuth envK (fun _ => Except.error "bad") 0 (some "tok") Store.empty =
      (Response.error 500 "Internal server error", Store.empty) ∧
    googleAuth envK (fun _ => Except.error "bad") 0 none Store.empty =
      (Response.error 400 "Google token not provided", Store.empty) :=
  googleAuth_rejected_token_500 envK (fun _ => Except.error "bad") 0 "tok" "bad"
    Store.empty (by decide) rfl

theorem microsoftAuth_claim_resolution_witness :
    (∃ msg, (microsoftAuth envK msDecodeNone 0 (some "mtok") Store.empty).1 =
        Response.error 400 msg) ↔
      (msDecodeNone "mtok" = none ∨
        ∃ d, msDecodeNone "mtok" = some d ∧
          (msEmailClaim d = none ∨ msIdClaim d = none)) :=
  (microsoftAuth_claim_resolution envK msDecodeNone 0 "mtok" Store.empty (by decide)).1

end BlankProject
